import Mathlib

/-!
Verification of the lexical backend (`backend/server.js`): schema inspection
heuristics, the two-phase `/api/search` handler, and its error-handling paths.

The JavaScript code is shallowly embedded as pure Lean functions over an
explicit model of the database catalog.  Per-step failures of the external
database (a failing `DESCRIBE`, a failing `SHOW TABLES`, a failing `SELECT`)
are modelled by boolean flags on the corresponding catalog entries, mirroring
exactly which operations the code wraps in `try`/`catch`.
-/

namespace LexicalBackend

/-- A cell value as seen through the mysql2 driver: a string, or
NULL/undefined.  Both `NULL` columns and absent keys behave the same way
under JavaScript truthiness filtering, so they share the `vnull` case. -/
inductive Value where
  | vstr (s : String)
  | vnull
deriving Repr, DecidableEq

/-- JavaScript truthiness for the values a text column can produce:
`filter(Boolean)` keeps a string iff it is non-empty and drops null/undefined. -/
def Value.truthy : Value → Bool
  | .vstr s => s ≠ ""
  | .vnull => false

/-- Model of JavaScript `String.prototype.toLowerCase` and SQL `LOWER`:
lower-case every character (Lean's `Char.toLower`, which lowercases the
ASCII range relevant to the fixed vocabulary lists and SQL identifiers). -/
def strLower (s : String) : String := ⟨s.data.map Char.toLower⟩

/-- Model of JavaScript `String.prototype.trim`: strip whitespace from both
ends. -/
def jsTrim (s : String) : String :=
  ⟨((s.data.dropWhile Char.isWhitespace).reverse.dropWhile Char.isWhitespace).reverse⟩

/-- A row as returned by `SELECT *`: an association list from column name to
value (the driver materialises rows as plain objects keyed by column name). -/
def Row := List (String × Value)
deriving Repr, DecidableEq

/-- `row[c]` in JavaScript: the value stored under key `c`, or undefined
(modelled `vnull`) when the key is absent. -/
def rowGet (r : Row) (c : String) : Value :=
  match r.find? (fun p => p.1 = c) with
  | some p => p.2
  | none => .vnull

/-- One table of the external database.  `describeOk` models whether
`DESCRIBE db.table` succeeds; `queryOk` models whether a `SELECT` on the
table succeeds.  `columns` are the raw field names of the `DESCRIBE` output. -/
structure Table where
  name : String
  describeOk : Bool
  columns : List String
  queryOk : Bool
  rows : List Row
deriving Repr, DecidableEq

/-- One database of the external server.  `showTablesOk` models whether
`SHOW TABLES FROM db` succeeds. -/
structure Database where
  name : String
  showTablesOk : Bool
  tables : List Table
deriving Repr, DecidableEq

/-- The external MySQL server as visible through the catalog statements the
backend issues (`SHOW DATABASES`, `SHOW TABLES`, `DESCRIBE`, `SELECT`). -/
structure Catalog where
  databases : List Database
deriving Repr, DecidableEq

/-- `WORD_COLUMNS` from server.js line 36. -/
def WORD_COLUMNS : List String := ["word", "term", "lemma", "headword", "entry", "name"]

/-- `DEF_COLUMNS` from server.js line 37. -/
def DEF_COLUMNS : List String := ["definition", "meaning", "gloss", "description", "explanation"]

/-- `EX_COLUMNS` from server.js line 38. -/
def EX_COLUMNS : List String := ["example", "usage", "sentence", "samples"]

/-- The system schemas excluded in server.js lines 52 and 151. -/
def sysSchemas : List String := ["information_schema", "mysql", "performance_schema", "sys"]

/-- A candidate table record as pushed onto `inspectionSummary.candidates`
(server.js lines 83-90). -/
structure CandidateTable where
  db : String
  table : String
  wordCol : String
  defCols : List String
  exCols : List String
  cols : List String
deriving Repr, DecidableEq

/-- The in-memory `inspectionSummary` object (server.js lines 41-44). -/
structure InspectionSummary where
  databases : List String
  candidates : List CandidateTable
deriving Repr, DecidableEq

/-- `desc.map((c) => c.Field.toLowerCase())` (server.js line 71). -/
def colsLower (t : Table) : List String := t.columns.map strLower

/-- The per-table body of the inspection loop (server.js lines 71-91): from
the lower-cased column list, decide candidacy and build the candidate record. -/
def candidateOf (db : String) (t : Table) : Option CandidateTable :=
  let cols := colsLower t
  let hasWord := WORD_COLUMNS.any (fun c => cols.contains c)
  let hasDef := DEF_COLUMNS.any (fun c => cols.contains c)
  let hasEx := EX_COLUMNS.any (fun c => cols.contains c)
  if hasWord && (hasDef || hasEx) then
    match WORD_COLUMNS.find? (fun c => cols.contains c) with
    | some wordCol =>
        some { db := db
               table := t.name
               wordCol := wordCol
               defCols := DEF_COLUMNS.filter (fun c => cols.contains c)
               exCols := EX_COLUMNS.filter (fun c => cols.contains c)
               cols := cols }
    | none => none
  else none

/-- The inner table loop of `inspectSchema` (server.js lines 68-95): a table
whose `DESCRIBE` fails is logged and skipped (the `catch` on line 92), the
others contribute via `candidateOf`. -/
def inspectTables (db : String) (ts : List Table) : List CandidateTable :=
  ts.filterMap (fun t => if t.describeOk then candidateOf db t else none)

/-- `SHOW DATABASES` followed by name lookup: the code iterates database
NAMES (server.js line 60) and issues `SHOW TABLES FROM name`; we resolve the
name against the catalog.  A name with no database behaves like a failing
`SHOW TABLES` (the statement errors). -/
def lookupDb (cat : Catalog) (d : String) : Option Database :=
  cat.databases.find? (fun db => db.name = d)

/-- `filteredDbNames` (server.js lines 51-53): restrict to `DB_NAME` when it
is set (JavaScript truthiness: the empty string counts as unset), then drop
the system schemas. -/
def filteredDbNames (dbName : String) (cat : Catalog) : List String :=
  (if dbName ≠ "" then [dbName] else cat.databases.map (fun db => db.name)).filter
    (fun d => !(sysSchemas.contains d))

/-- The outer database loop of `inspectSchema` (server.js lines 60-96).
A failing `SHOW TABLES FROM db` is NOT caught inside `inspectSchema`: the
exception aborts the loop and propagates to the startup IIFE.  Because
`inspectionSummary` is a global mutated by `push`, the candidates recorded
before the abort survive.  Returns the accumulated candidates and whether the
loop ran to completion. -/
def inspectLoop (cat : Catalog) : List String → List CandidateTable → List CandidateTable × Bool
  | [], acc => (acc, true)
  | d :: rest, acc =>
    match lookupDb cat d with
    | none => (acc, false)
    | some db =>
      if db.showTablesOk then inspectLoop cat rest (acc ++ inspectTables d db.tables)
      else (acc, false)

/-- `inspectSchema` (server.js lines 46-111) as a state transformer on the
global summary: `databases` is assigned only on line 97, after the loop, so
it keeps its initial empty value when the loop aborts, while `candidates`
keeps whatever was pushed. -/
def inspectSchema (dbName : String) (cat : Catalog) : InspectionSummary :=
  let names := filteredDbNames dbName cat
  let out := inspectLoop cat names []
  { databases := if out.2 then names else [], candidates := out.1 }

/-- One search result as pushed onto `results` (server.js lines 134-140 and
170-176). -/
structure SearchResult where
  source : String
  word : Value
  definitions : List Value
  examples : List Value
  row : Row
deriving Repr, DecidableEq

/-- The HTTP responses the `/api/search` handler can produce. -/
inductive Response where
  | ok (word : String) (count : Nat) (results : List SearchResult)
  | notFound (word : String)
  | badRequest (msg : String)
  | serverError
deriving Repr, DecidableEq

/-- `SELECT * FROM t WHERE LOWER(col) = LOWER(?) LIMIT lim`: the rows whose
value in `col` is a string equal to the query word up to ASCII case, truncated
to the limit.  `LOWER(NULL)` is NULL, which never satisfies the equality. -/
def queryRows (t : Table) (col : String) (word : String) (lim : Nat) : List Row :=
  (t.rows.filter (fun r =>
    match rowGet r col with
    | .vstr s => strLower s == strLower word
    | .vnull => false)).take lim

/-- Mapping one returned row to a result object (server.js lines 131-140 for
the candidate phase, 167-176 for the fallback phase): read the given
definition/example columns off the row and drop falsy values via
`filter(Boolean)`. -/
def rowToResult (source : String) (wordCol : String) (defCols exCols : List String)
    (r : Row) : SearchResult :=
  { source := source
    word := rowGet r wordCol
    definitions := (defCols.map (fun c => rowGet r c)).filter Value.truthy
    examples := (exCols.map (fun c => rowGet r c)).filter Value.truthy
    row := r }

/-- Resolving `db.table` named by a candidate against the catalog. -/
def lookupTable (cat : Catalog) (d t : String) : Option Table :=
  (lookupDb cat d).bind (fun db => db.tables.find? (fun tb => tb.name = t))

/-- The per-candidate body of the candidate phase (server.js lines 124-145):
query the candidate's table on its recorded word column (limit 50) and map
each row with the candidate's recorded definition/example columns.  A failing
query is caught, logged and contributes nothing (the `catch` on line 142);
a vanished table makes the `SELECT` fail, with the same effect. -/
def candResults (cat : Catalog) (word : String) (cand : CandidateTable) : List SearchResult :=
  match lookupTable cat cand.db cand.table with
  | none => []
  | some t =>
    if t.queryOk then
      (queryRows t cand.wordCol word 50).map
        (rowToResult (cand.db ++ "." ++ cand.table) cand.wordCol cand.defCols cand.exCols)
    else []

/-- Phase 1 of the search (server.js lines 124-145): the concatenation, in
candidate order, of each candidate table's results. -/
def candidatePhase (summary : InspectionSummary) (cat : Catalog) (word : String) :
    List SearchResult :=
  summary.candidates.flatMap (candResults cat word)

/-- The per-table body of the fallback loop (server.js lines 157-181): the
`try` covers `DESCRIBE` and the `SELECT`, so either failing is silently
ignored; a table without a word-vocabulary column is skipped (`continue`);
otherwise the row mapping uses the FULL fixed vocabulary lists rather than
the table's matched columns (limit 25). -/
def fallbackTable (db : String) (word : String) (t : Table) : List SearchResult :=
  if t.describeOk then
    match WORD_COLUMNS.find? (fun c => (colsLower t).contains c) with
    | none => []
    | some wcol =>
      if t.queryOk then
        (queryRows t wcol word 25).map
          (rowToResult (db ++ "." ++ t.name) wcol DEF_COLUMNS EX_COLUMNS)
      else []
  else []

/-- The per-database body of the fallback loop (server.js lines 153-182):
`SHOW TABLES FROM db` is issued OUTSIDE the per-table `try`, so its failure
escapes to the handler's outer `catch`. -/
def fallbackDb (cat : Catalog) (word : String) (d : String) :
    Except Unit (List SearchResult) :=
  match lookupDb cat d with
  | none => .error ()
  | some db =>
    if db.showTablesOk then .ok (db.tables.flatMap (fallbackTable d word)) else .error ()

/-- The fallback database loop (server.js lines 153-182), accumulating the
pushed results; the first uncaught failure aborts the whole loop (and the
handler answers 500, so the partial results are lost). -/
def fallbackLoop (cat : Catalog) (word : String) :
    List String → List SearchResult → Except Unit (List SearchResult)
  | [], acc => .ok acc
  | d :: rest, acc =>
    match fallbackDb cat word d with
    | .error e => .error e
    | .ok rs2 => fallbackLoop cat word rest (acc ++ rs2)

/-- Phase 2 of the search (server.js lines 148-183): re-enumerate all
non-system databases fresh (`SHOW DATABASES`, line 149, with the same
system-schema filter) and run the fallback loop over them. -/
def fallbackPhase (cat : Catalog) (word : String) : Except Unit (List SearchResult) :=
  fallbackLoop cat word
    ((cat.databases.map (fun db => db.name)).filter (fun d => !(sysSchemas.contains d))) []

/-- The body of the handler after validation (server.js lines 121-183):
run the candidate phase; the fallback phase runs exactly under the guard
`results.length === 0` (line 148).  The second component records whether the
fallback phase executed. -/
def searchCore (summary : InspectionSummary) (cat : Catalog) (word : String) :
    Except Unit (List SearchResult) × Bool :=
  let r1 := candidatePhase summary cat word
  if r1.length = 0 then ((fallbackPhase cat word).map (fun r2 => r1 ++ r2), true)
  else (.ok r1, false)

/-- The `/api/search` handler (server.js lines 113-195).  `rawWord` is the
`word` query parameter (`none` when absent); it is defaulted to the empty
string and trimmed (line 114), and a blank result is rejected with 400
BEFORE `pool.getConnection()` is called.  The second component records
whether a database connection was acquired (and hence whether any query
could run). -/
def searchHandler (summary : InspectionSummary) (cat : Catalog) (rawWord : Option String) :
    Response × Bool :=
  let word := jsTrim (rawWord.getD "")
  if word = "" then (.badRequest "Missing required query parameter: word", false)
  else
    match (searchCore summary cat word).1 with
    | .error _ => (.serverError, true)
    | .ok results =>
      if results.length = 0 then (.notFound word, true)
      else (.ok word results.length results, true)

end LexicalBackend

namespace LexicalBackend

/-! ### Concrete catalogs used by witnesses and counterexamples -/

/-- A one-table dictionary database: `words(word, definition)` holding the
single row `("apple", "a fruit")`. -/
def tblWords : Table :=
  ⟨"words", true, ["word", "definition"], true,
    [[("word", .vstr "apple"), ("definition", .vstr "a fruit")]]⟩

/-- A catalog with the single database `lexi` holding `tblWords`. -/
def catC6 : Catalog := ⟨[⟨"lexi", true, [tblWords]⟩]⟩

/-- The candidate record that inspection derives from `tblWords`. -/
def candC6 : CandidateTable := ⟨"lexi", "words", "word", ["definition"], [], ["word", "definition"]⟩

/-! ### Helper lemmas -/

lemma any_contains_iff (vocab cols : List String) :
    (vocab.any (fun c => cols.contains c) = true) ↔ ∃ c ∈ cols, c ∈ vocab := by
  constructor
  · intro h
    rcases List.any_eq_true.mp h with ⟨c, hc, hcc⟩
    exact ⟨c, List.mem_of_elem_eq_true hcc, hc⟩
  · rintro ⟨c, hc, hcv⟩
    exact List.any_eq_true.mpr ⟨c, hcv, List.elem_eq_true_of_mem hc⟩

lemma candidateOf_isSome (db : String) (t : Table) :
    (candidateOf db t).isSome =
      ((WORD_COLUMNS.any (fun c => (colsLower t).contains c)) &&
       ((DEF_COLUMNS.any (fun c => (colsLower t).contains c)) ||
        (EX_COLUMNS.any (fun c => (colsLower t).contains c)))) := by
  unfold candidateOf
  by_cases h : ((WORD_COLUMNS.any (fun c => (colsLower t).contains c)) &&
       ((DEF_COLUMNS.any (fun c => (colsLower t).contains c)) ||
        (EX_COLUMNS.any (fun c => (colsLower t).contains c)))) = true
  · rw [if_pos h, h]
    have hW : WORD_COLUMNS.any (fun c => (colsLower t).contains c) = true :=
      ((Bool.and_eq_true _ _).mp h).1
    have hf : (WORD_COLUMNS.find? (fun c => (colsLower t).contains c)).isSome := by
      rw [List.find?_isSome]
      exact List.any_eq_true.mp hW
    rcases Option.isSome_iff_exists.mp hf with ⟨w, hw⟩
    rw [hw]
    rfl
  · rw [if_neg h]
    rw [Bool.not_eq_true] at h
    rw [h]
    rfl

lemma candidateOf_some_inv (db : String) (t : Table) (c : CandidateTable)
    (h : candidateOf db t = some c) :
    c.cols = colsLower t ∧
    WORD_COLUMNS.find? (fun x => (colsLower t).contains x) = some c.wordCol ∧
    c.defCols = DEF_COLUMNS.filter (fun x => (colsLower t).contains x) ∧
    c.exCols = EX_COLUMNS.filter (fun x => (colsLower t).contains x) := by
  unfold candidateOf at h
  by_cases hb : ((WORD_COLUMNS.any (fun c => (colsLower t).contains c)) &&
       ((DEF_COLUMNS.any (fun c => (colsLower t).contains c)) ||
        (EX_COLUMNS.any (fun c => (colsLower t).contains c)))) = true
  · rw [if_pos hb] at h
    cases hf : WORD_COLUMNS.find? (fun c => (colsLower t).contains c) with
    | none => rw [hf] at h; exact absurd h (by simp)
    | some w =>
      rw [hf] at h
      injection h with h2
      subst h2
      exact ⟨rfl, rfl, rfl, rfl⟩
  · rw [if_neg hb] at h
    cases h

lemma inspectLoop_mem (cat : Catalog) (ds : List String) (acc : List CandidateTable)
    (c : CandidateTable) (hc : c ∈ (inspectLoop cat ds acc).1) :
    c ∈ acc ∨ ∃ d t, candidateOf d t = some c := by
  induction ds generalizing acc with
  | nil => exact .inl hc
  | cons d rest ih =>
    unfold inspectLoop at hc
    cases hdb : lookupDb cat d with
    | none => rw [hdb] at hc; exact .inl hc
    | some db =>
      rw [hdb] at hc
      simp only [] at hc
      by_cases hs : db.showTablesOk = true
      · rw [if_pos hs] at hc
        rcases ih _ hc with hacc | hex
        · rcases List.mem_append.mp hacc with h1 | h2
          · exact .inl h1
          · right
            unfold inspectTables at h2
            rcases List.mem_filterMap.mp h2 with ⟨t, _, ht⟩
            by_cases hdo : t.describeOk = true
            · rw [if_pos hdo] at ht; exact ⟨d, t, ht⟩
            · rw [if_neg hdo] at ht; cases ht
        · exact .inr hex
      · rw [if_neg hs] at hc; exact .inl hc

lemma truthy_eq (v : Value) :
    Value.truthy v = decide (v ≠ Value.vnull ∧ v ≠ Value.vstr "") := by
  cases v with
  | vstr s => by_cases hs : s = "" <;> simp [Value.truthy, hs]
  | vnull => simp [Value.truthy]

lemma truthy_fun :
    Value.truthy = (fun v => decide (v ≠ Value.vnull ∧ v ≠ Value.vstr "")) :=
  funext truthy_eq

/-! ### Claim theorems -/

/-- Claim C2: during schema inspection, a table is recorded as a candidate
iff its lower-cased column set contains at least one word-vocabulary name
and at least one definition-vocabulary or example-vocabulary name. -/
theorem c2_candidate_iff (db : String) (t : Table) :
    (candidateOf db t).isSome = true ↔
      ((∃ c ∈ colsLower t, c ∈ WORD_COLUMNS) ∧
       ((∃ c ∈ colsLower t, c ∈ DEF_COLUMNS) ∨ (∃ c ∈ colsLower t, c ∈ EX_COLUMNS))) := by
  rw [candidateOf_isSome, Bool.and_eq_true, Bool.or_eq_true,
      any_contains_iff, any_contains_iff, any_contains_iff]

/-- Claim C3: every candidate produced by schema inspection has its word
column in its recorded column set, and all its recorded definition and
example columns in that set as well. -/
theorem c3_candidate_invariant (dbName : String) (cat : Catalog) (c : CandidateTable)
    (hc : c ∈ (inspectSchema dbName cat).candidates) :
    c.wordCol ∈ c.cols ∧ (∀ x ∈ c.defCols, x ∈ c.cols) ∧ (∀ x ∈ c.exCols, x ∈ c.cols) := by
  have hmem : c ∈ (inspectLoop cat (filteredDbNames dbName cat) []).1 := hc
  rcases inspectLoop_mem _ _ _ _ hmem with h0 | ⟨d, t, hct⟩
  · cases h0
  · obtain ⟨hcols, hfind, hdef, hex⟩ := candidateOf_some_inv _ _ _ hct
    refine ⟨?_, ?_, ?_⟩
    · have hw := List.find?_some hfind
      rw [hcols]
      exact List.mem_of_elem_eq_true hw
    · intro x hx
      rw [hdef] at hx
      rw [hcols]
      exact List.mem_of_elem_eq_true (List.mem_filter.mp hx).2
    · intro x hx
      rw [hex] at hx
      rw [hcols]
      exact List.mem_of_elem_eq_true (List.mem_filter.mp hx).2

/-- Witness for C3 at the concrete candidate discovered in `catC6`. -/
theorem c3_witness :
    candC6.wordCol ∈ candC6.cols ∧ (∀ x ∈ candC6.defCols, x ∈ candC6.cols) ∧
      (∀ x ∈ candC6.exCols, x ∈ candC6.cols) :=
  c3_candidate_invariant "" catC6 candC6 (by decide)

/-- Claim C1: the fallback phase executes iff every candidate table
contributed zero results in the candidate phase. -/
theorem c1_fallback_guard (s : InspectionSummary) (cat : Catalog) (word : String) :
    (searchCore s cat word).2 = true ↔
      ∀ cand ∈ s.candidates, candResults cat word cand = [] := by
  have key : candidatePhase s cat word = [] ↔
      ∀ cand ∈ s.candidates, candResults cat word cand = [] := by
    unfold candidatePhase
    exact List.flatMap_eq_nil_iff
  simp only [searchCore]
  by_cases h : (candidatePhase s cat word).length = 0
  · rw [if_pos h]
    simpa using key.mp (List.length_eq_zero.mp h)
  · rw [if_neg h]
    constructor
    · intro hfalse; exact absurd hfalse (by simp)
    · intro hall
      have h0 : (candidatePhase s cat word).length = 0 := by rw [key.mpr hall]; rfl
      exact absurd h0 h

/-- Claim C6: on a database with the single table `words(word, definition)`
holding `("apple", "a fruit")`, searching `"Apple"` answers 200 with exactly
one result whose word is the stored `"apple"` and whose definitions are
`["a fruit"]`. -/
theorem c6_apple_lookup :
    (searchHandler (inspectSchema "" catC6) catC6 (some "Apple")).1 =
      .ok "Apple" 1 [⟨"lexi.words", .vstr "apple", [.vstr "a fruit"], [],
        [("word", .vstr "apple"), ("definition", .vstr "a fruit")]⟩] := by
  decide

/-- Claim C7: in the candidate phase every returned row maps to a result
whose definitions (resp. examples) are exactly the row's values at the
candidate's recorded definition (resp. example) columns, in recorded order,
with exactly the null and empty values removed. -/
theorem c7_row_mapping (cat : Catalog) (word : String) (cand : CandidateTable) (t : Table)
    (ht : lookupTable cat cand.db cand.table = some t) (hq : t.queryOk = true) :
    candResults cat word cand = (queryRows t cand.wordCol word 50).map (fun r =>
      { source := cand.db ++ "." ++ cand.table
        word := rowGet r cand.wordCol
        definitions := (cand.defCols.map (fun c => rowGet r c)).filter
          (fun v => decide (v ≠ Value.vnull ∧ v ≠ Value.vstr ""))
        examples := (cand.exCols.map (fun c => rowGet r c)).filter
          (fun v => decide (v ≠ Value.vnull ∧ v ≠ Value.vstr ""))
        row := r }) := by
  unfold candResults
  rw [ht]
  simp only []
  rw [if_pos hq]
  refine List.map_congr_left ?_
  intro r _
  simp [rowToResult, truthy_fun]

/-- Witness for C7 at the concrete candidate of `catC6`. -/
theorem c7_witness :
    candResults catC6 "Apple" candC6 =
      (queryRows tblWords candC6.wordCol "Apple" 50).map (fun r =>
        { source := candC6.db ++ "." ++ candC6.table
          word := rowGet r candC6.wordCol
          definitions := (candC6.defCols.map (fun c => rowGet r c)).filter
            (fun v => decide (v ≠ Value.vnull ∧ v ≠ Value.vstr ""))
          examples := (candC6.exCols.map (fun c => rowGet r c)).filter
            (fun v => decide (v ≠ Value.vnull ∧ v ≠ Value.vstr ""))
          row := r }) :=
  c7_row_mapping catC6 "Apple" candC6 tblWords (by decide) (by decide)

/-- Claim C8: a request whose `word` parameter is absent, empty, or
whitespace-only gets 400 with the fixed error message, and no database
connection is acquired (second component `false`). -/
theorem c8_validation (s : InspectionSummary) (cat : Catalog) (raw : Option String)
    (h : jsTrim (raw.getD "") = "") :
    searchHandler s cat raw = (.badRequest "Missing required query parameter: word", false) := by
  simp [searchHandler, h]

/-- Witness for C8 on a whitespace-only parameter. -/
theorem c8_witness :
    searchHandler (inspectSchema "" catC6) catC6 (some "   ") =
      (.badRequest "Missing required query parameter: word", false) :=
  c8_validation (inspectSchema "" catC6) catC6 (some "   ") (by decide)

/-- Claim C9: when `DB_NAME` is one of the excluded system schemas, the
filtered database list is empty, so inspection examines nothing and yields
no candidates. -/
theorem c9_sysschema (cat : Catalog) (dbName : String) (h : dbName ∈ sysSchemas) :
    filteredDbNames dbName cat = [] ∧ inspectSchema dbName cat = ⟨[], []⟩ := by
  have hne : filteredDbNames dbName cat = [] := by
    fin_cases h <;> rfl
  refine ⟨hne, ?_⟩
  simp [inspectSchema, hne, inspectLoop]

/-- Witness for C9 with `DB_NAME = "mysql"`. -/
theorem c9_witness :
    filteredDbNames "mysql" catC6 = [] ∧ inspectSchema "mysql" catC6 = ⟨[], []⟩ :=
  c9_sysschema catC6 "mysql" (by decide)

/-- Claim C10: every row a candidate query returns becomes a result (the
count of results equals the count of returned rows, with no filtering on
definitions/examples), and one candidate with a nonempty row set suppresses
the fallback phase. -/
theorem c10_rows_always_results (s : InspectionSummary) (cat : Catalog) (word : String)
    (cand : CandidateTable) (t : Table)
    (hmem : cand ∈ s.candidates) (ht : lookupTable cat cand.db cand.table = some t)
    (hq : t.queryOk = true) (hrows : queryRows t cand.wordCol word 50 ≠ []) :
    (candResults cat word cand).length = (queryRows t cand.wordCol word 50).length ∧
    (searchCore s cat word).2 = false := by
  have hcr : candResults cat word cand =
      (queryRows t cand.wordCol word 50).map
        (rowToResult (cand.db ++ "." ++ cand.table) cand.wordCol cand.defCols cand.exCols) := by
    unfold candResults
    rw [ht]
    simp only []
    rw [if_pos hq]
  constructor
  · rw [hcr, List.length_map]
  · have hne : candResults cat word cand ≠ [] := by
      rw [hcr]
      intro hmape
      exact hrows (List.map_eq_nil_iff.mp hmape)
    have hphase : candidatePhase s cat word ≠ [] := by
      intro hp
      unfold candidatePhase at hp
      exact hne (List.flatMap_eq_nil_iff.mp hp cand hmem)
    simp only [searchCore]
    rw [if_neg (fun h0 => hphase (List.length_eq_zero.mp h0))]

/-- A table whose matching row has a NULL definition: its search result
carries no definitions and no examples. -/
def tblEmptyDefs : Table :=
  ⟨"terms", true, ["term", "meaning"], true,
    [[("term", .vstr "dog"), ("meaning", .vnull)]]⟩

/-- A catalog exercising C10: the only matching rows map to results with
empty definitions and examples. -/
def catC10 : Catalog := ⟨[⟨"lex2", true, [tblEmptyDefs]⟩]⟩

/-- The candidate record inspection derives from `tblEmptyDefs`. -/
def candC10 : CandidateTable := ⟨"lex2", "terms", "term", ["meaning"], [], ["term", "meaning"]⟩

/-- Witness for C10: the match on `"dog"` yields a result with empty
definitions and examples, and the fallback phase still does not run. -/
theorem c10_witness :
    ((candResults catC10 "dog" candC10).length =
      (queryRows tblEmptyDefs candC10.wordCol "dog" 50).length) ∧
    (searchCore (inspectSchema "" catC10) catC10 "dog").2 = false :=
  c10_rows_always_results (inspectSchema "" catC10) catC10 "dog" candC10 tblEmptyDefs
    (by decide) (by decide) (by decide) (by decide)

/-! ### Claim C4 (corrected) -/

/-- Whether any per-table `DESCRIBE` step of inspection errors. -/
def hasDescribeError (cat : Catalog) : Bool :=
  cat.databases.any (fun db => db.tables.any (fun t => !t.describeOk))

/-- A table whose `DESCRIBE` fails during inspection. -/
def tblBroken : Table := ⟨"broken", false, ["term", "gloss"], true, []⟩

/-- A catalog with one good candidate table and one table whose `DESCRIBE`
fails. -/
def catC4 : Catalog := ⟨[⟨"lex", true, [tblWords, tblBroken]⟩]⟩

/-- Counterexample to C4 as stated: an inspection step errors (the
`DESCRIBE` of `lex.broken`), yet the resulting candidate list is NOT empty -
the candidate found in `lex.words` is retained. -/
theorem c4_counterexample :
    hasDescribeError catC4 = true ∧ (inspectSchema "" catC4).candidates ≠ [] := by
  decide

/-- The same catalog with every table whose `DESCRIBE` fails removed. -/
def dropFailedTables (cat : Catalog) : Catalog :=
  ⟨cat.databases.map (fun db =>
    ⟨db.name, db.showTablesOk, db.tables.filter (fun t => t.describeOk)⟩)⟩

lemma inspectTables_filter (d : String) (ts : List Table) :
    inspectTables d (ts.filter (fun t => t.describeOk)) = inspectTables d ts := by
  unfold inspectTables
  induction ts with
  | nil => rfl
  | cons t rest ih =>
    by_cases h : t.describeOk = true
    · simp only [List.filter_cons, h, if_pos, List.filterMap_cons, ih]
    · have h' : t.describeOk = false := by
        cases hb : t.describeOk
        · rfl
        · exact absurd hb h
      simp only [List.filter_cons, h', List.filterMap_cons, ih]
      exact ih

lemma lookupDb_drop (cat : Catalog) (d : String) :
    lookupDb (dropFailedTables cat) d =
      (lookupDb cat d).map (fun db =>
        ⟨db.name, db.showTablesOk, db.tables.filter (fun t => t.describeOk)⟩) := by
  unfold lookupDb dropFailedTables
  rw [List.find?_map]
  rfl

lemma filteredDbNames_drop (dbName : String) (cat : Catalog) :
    filteredDbNames dbName (dropFailedTables cat) = filteredDbNames dbName cat := by
  unfold filteredDbNames dropFailedTables
  by_cases h : dbName ≠ ""
  · rw [if_pos h, if_pos h]
  · rw [if_neg h, if_neg h]
    rw [List.map_map]
    rfl

lemma inspectLoop_drop (cat : Catalog) (ds : List String) (acc : List CandidateTable) :
    inspectLoop (dropFailedTables cat) ds acc = inspectLoop cat ds acc := by
  induction ds generalizing acc with
  | nil => rfl
  | cons d rest ih =>
    unfold inspectLoop
    rw [lookupDb_drop]
    cases hdb : lookupDb cat d with
    | none => rfl
    | some db =>
      simp only [Option.map_some']
      by_cases hs : db.showTablesOk = true
      · rw [if_pos hs, if_pos hs, inspectTables_filter]
        exact ih _
      · rw [if_neg hs, if_neg hs]

/-- Claim C4 amended: an inspection-step error on one table skips exactly
that table while inspection continues - the whole inspection summary is the
one obtained on the catalog with the failing tables removed, so candidates
found in other tables persist (the candidate list is not forced empty). -/
theorem c4_amended_skip_failing (dbName : String) (cat : Catalog) :
    inspectSchema dbName (dropFailedTables cat) = inspectSchema dbName cat := by
  simp only [inspectSchema]
  rw [filteredDbNames_drop, inspectLoop_drop]

/-! ### Claim C5 (corrected) -/

/-- A catalog where exactly one database's `SHOW TABLES` fails: `alpha`
lists fine (and has no tables), `beta` errors when its tables are listed. -/
def catC5 : Catalog := ⟨[⟨"alpha", true, []⟩, ⟨"beta", false, [tblWords]⟩]⟩

/-- Counterexample to C5 as stated: the only failure is listing the tables
of the single database `beta` during the fallback phase, yet the handler
answers 500. -/
theorem c5_counterexample :
    ((catC5.databases.filter (fun db => !db.showTablesOk)).map (fun db => db.name) = ["beta"]) ∧
    (searchHandler (inspectSchema "" catC5) catC5 (some "x")).1 = .serverError := by
  decide

lemma fallbackDb_ok (cat : Catalog) (word : String) (d : String)
    (h : ∀ db ∈ cat.databases, db.showTablesOk = true)
    (hd : d ∈ cat.databases.map (fun db => db.name)) :
    ∃ rs, fallbackDb cat word d = .ok rs := by
  rcases List.mem_map.mp hd with ⟨db, hdbmem, hname⟩
  have hsome : (lookupDb cat d).isSome := by
    rw [lookupDb, List.find?_isSome]
    exact ⟨db, hdbmem, by simp [hname]⟩
  rcases Option.isSome_iff_exists.mp hsome with ⟨db', hdb'⟩
  have hmem' : db' ∈ cat.databases := List.mem_of_find?_eq_some hdb'
  unfold fallbackDb
  rw [hdb']
  simp only []
  rw [if_pos (h db' hmem')]
  exact ⟨_, rfl⟩

lemma fallbackLoop_ok (cat : Catalog) (word : String) (names : List String)
    (h : ∀ d ∈ names, ∃ rs, fallbackDb cat word d = .ok rs) :
    ∀ acc, ∃ rs, fallbackLoop cat word names acc = .ok rs := by
  induction names with
  | nil => intro acc; exact ⟨acc, rfl⟩
  | cons d rest ih =>
    intro acc
    rcases h d (by simp) with ⟨rs2, hd⟩
    unfold fallbackLoop
    rw [hd]
    exact ih (fun x hx => h x (by simp [hx])) _

lemma fallbackPhase_ok (cat : Catalog) (word : String)
    (h : ∀ db ∈ cat.databases, db.showTablesOk = true) :
    ∃ rs, fallbackPhase cat word = .ok rs := by
  unfold fallbackPhase
  refine fallbackLoop_ok cat word _ ?_ []
  intro d hd
  exact fallbackDb_ok cat word d h (List.mem_filter.mp hd).1

/-- Claim C5 amended: failures describing or querying a single table never
surface as a 500 - as long as no database's table listing fails, the handler
never answers 500 (but a single database's failing `SHOW TABLES` in the
fallback phase does escalate, as `c5_counterexample` shows). -/
theorem c5_amended_no_table_error_500 (s : InspectionSummary) (cat : Catalog)
    (raw : Option String)
    (h : ∀ db ∈ cat.databases, db.showTablesOk = true) :
    (searchHandler s cat raw).1 ≠ Response.serverError := by
  simp only [searchHandler]
  by_cases hw : jsTrim (raw.getD "") = ""
  · rw [if_pos hw]
    simp
  · rw [if_neg hw]
    rcases fallbackPhase_ok cat (jsTrim (raw.getD "")) h with ⟨rs, hfb⟩
    simp only [searchCore]
    by_cases hlen : (candidatePhase s cat (jsTrim (raw.getD ""))).length = 0
    · rw [if_pos hlen]
      simp only [hfb, Except.map]
      split <;> simp
    · rw [if_neg hlen]
      simp only []
      split <;> simp

/-- Witness for the amended C5 on a catalog with no listing failures. -/
theorem c5_amended_witness :
    (searchHandler (inspectSchema "" catC6) catC6 (some "zzz")).1 ≠ Response.serverError :=
  c5_amended_no_table_error_500 (inspectSchema "" catC6) catC6 (some "zzz") (by decide)

end LexicalBackend
